import Mathlib

/-!
# Verification of the property-map repository's specification

A shallow embedding of the reusable core of the `property-map` repository:

* `src/property_map/map_utils.py` — `extract_coordinates`, the URL coordinate
  extractor built from two regular-expression searches and Python `float`;
* `src/property_map/db.py` — the `Database` facade (`insert_property`,
  `fetch_properties`);
* `src/pg/map.py` — the status-label dictionaries, the price/status filter and
  the base-map centering;
* `src/pg/form.py` — the desk flag derived from the form's pill widget.

Strings are modelled as `List Char`; Python floats are modelled exactly as
rationals (`ℚ`), which is faithful for everything proved here because only
which decimal fragment is parsed matters, never binary rounding.  A Python
call that can raise is modelled with `Except`.
-/

deriving instance DecidableEq for Except

namespace PropertyMap

/-! ## Coordinate extractor (`map_utils.py`)

The source searches `!3d([-0-9.]+)!4d([-0-9.]+)` and, failing that,
`@([-0-9.]+),([-0-9.]+)`, then applies `float` to the two captured groups.

The character class `[-0-9.]` contains neither `!` nor `,`, so the greedy
`+` groups can never backtrack past the literal that follows them: each
captured group is exactly the maximal run of class characters, and a match
attempt at a position succeeds iff the literal-then-maximal-run-then-literal
decomposition below succeeds.  `re.search` returns the leftmost position at
which a match attempt succeeds, which `search3d4d`/`searchAtSign` mirror by
scanning positions left to right. -/

/-- The regex character class `[-0-9.]` from `map_utils.py`. -/
def charClass (c : Char) : Bool :=
  c == '-' || c.isDigit || c == '.'

/-- Match attempt for `!3d([-0-9.]+)!4d([-0-9.]+)` anchored at the start of
`s`, returning the two captured groups on success: the literal `!3d`, a
nonempty maximal run of class characters (greedy `+`; no backtracking is
possible because the following literal starts with `!`, which is outside
the class), the literal `!4d`, and a second nonempty maximal run. -/
def match3d4dAt (s : List Char) : Option (List Char × List Char) :=
  if s.take 3 = ['!', '3', 'd'] then
    if ((s.drop 3).takeWhile charClass).isEmpty then none
    else if ((s.drop 3).dropWhile charClass).take 3 = ['!', '4', 'd'] then
      if ((((s.drop 3).dropWhile charClass).drop 3).takeWhile charClass).isEmpty
      then none
      else some ((s.drop 3).takeWhile charClass,
        (((s.drop 3).dropWhile charClass).drop 3).takeWhile charClass)
    else none
  else none

/-- Match attempt for `@([-0-9.]+),([-0-9.]+)` anchored at the start of `s`
(the separator `,` is outside the class, so again the greedy groups are
exactly the maximal class runs). -/
def matchAtSignAt (s : List Char) : Option (List Char × List Char) :=
  if s.take 1 = ['@'] then
    if ((s.drop 1).takeWhile charClass).isEmpty then none
    else if ((s.drop 1).dropWhile charClass).take 1 = [','] then
      if ((((s.drop 1).dropWhile charClass).drop 1).takeWhile charClass).isEmpty
      then none
      else some ((s.drop 1).takeWhile charClass,
        (((s.drop 1).dropWhile charClass).drop 1).takeWhile charClass)
    else none
  else none

/-- `re.search`: scan positions left to right and return the leftmost
successful match attempt of the matcher `m`. -/
def reSearch (m : List Char → Option (List Char × List Char)) :
    List Char → Option (List Char × List Char)
  | [] => none
  | c :: rest =>
    match m (c :: rest) with
    | some p => some p
    | none => reSearch m rest

/-- `re.search` for the `!3d!4d` pattern. -/
def search3d4d : List Char → Option (List Char × List Char) :=
  reSearch match3d4dAt

/-- `re.search` for the `@lat,lon` pattern. -/
def searchAtSign : List Char → Option (List Char × List Char) :=
  reSearch matchAtSignAt

/-- Value of a list of decimal digit characters, most significant first. -/
def digitsVal (l : List Char) : ℕ :=
  l.foldl (fun a c => 10 * a + (c.toNat - 48)) 0

/-- Acceptance condition of Python `float` on an unsigned fragment drawn
from the characters `[0-9.]`: every character is a digit or a dot, there is
at most one dot and at least one digit (`"1."`, `".5"`, `"15"` parse; `""`,
`"."`, `"1.2.3"` do not). -/
def decimalBody (s : List Char) : Bool :=
  s.all (fun c => c.isDigit || c == '.') && s.count '.' ≤ 1
    && s.any Char.isDigit

/-- Python `float` on an unsigned fragment drawn from the characters
`[0-9.]`; the value is the exact decimal rational. -/
def parseUnsigned (s : List Char) : Option ℚ :=
  if decimalBody s then
    let ip := s.takeWhile (fun c => c != '.')
    let fp := (s.dropWhile (fun c => c != '.')).drop 1
    some (mkRat (Int.ofNat (digitsVal ip * 10 ^ fp.length + digitsVal fp))
      (10 ^ fp.length))
  else none

/-- Python `float` applied to a captured group.  Captured groups only ever
contain characters of the class `[-0-9.]`, and on such strings `float`
accepts exactly an optional leading minus sign followed by an unsigned
decimal fragment; a minus anywhere else, a repeated minus, a repeated dot or
a digitless fragment raise `ValueError` (modelled as `none`). -/
def pyFloat : List Char → Option ℚ
  | '-' :: rest => (parseUnsigned rest).map Neg.neg
  | s => parseUnsigned s

/-- `extract_coordinates` from `map_utils.py`: try the `!3d!4d` search, fall
back to the `@lat,lon` search, return `none` when neither matches; a group
that `float` rejects raises `ValueError`, modelled as `Except.error`. -/
def extract_coordinates (url : List Char) : Except Unit (Option (ℚ × ℚ)) :=
  match search3d4d url with
  | some (g1, g2) =>
    match pyFloat g1, pyFloat g2 with
    | some lat, some lon => Except.ok (some (lat, lon))
    | _, _ => Except.error ()
  | none =>
    match searchAtSign url with
    | some (g1, g2) =>
      match pyFloat g1, pyFloat g2 with
      | some lat, some lon => Except.ok (some (lat, lon))
      | _, _ => Except.error ()
    | none => Except.ok none

/-- The spec's unsigned decimal-number grammar, stated as the spec words it
(§4.1: "decimal digits and a decimal point", no exponent, no separators): a
run of digits, optionally followed by one decimal point and another run of
digits, with at least one digit in total. -/
def digitDotBody (s : List Char) : Bool :=
  match s.dropWhile Char.isDigit with
  | [] => !s.isEmpty
  | r :: fp => r == '.' && fp.all Char.isDigit && s.any Char.isDigit

/-- The spec's `<signed-decimal>` shape (§4.1): an optional leading minus
sign followed by the decimal-number grammar. -/
def isSignedDecimal : List Char → Bool
  | '-' :: rest => digitDotBody rest
  | s => digitDotBody s

/-- The URL contains a substring matching
`!3d<signed-decimal>!4d<signed-decimal>`. -/
def contains3d4d (url : List Char) : Prop :=
  ∃ pre d1 d2 post, url
      = pre ++ '!' :: '3' :: 'd' :: (d1 ++ '!' :: '4' :: 'd' :: (d2 ++ post))
    ∧ isSignedDecimal d1 ∧ isSignedDecimal d2

/-- The URL contains a substring matching
`@<signed-decimal>,<signed-decimal>`. -/
def containsAtPair (url : List Char) : Prop :=
  ∃ pre d1 d2 post, url = pre ++ '@' :: (d1 ++ ',' :: (d2 ++ post))
    ∧ isSignedDecimal d1 ∧ isSignedDecimal d2

/-- The matcher `m` succeeds at position `i` of `url` and at no earlier
position: the match `re.search` reports. -/
def LeftmostMatch (m : List Char → Option (List Char × List Char))
    (url : List Char) (p : List Char × List Char) : Prop :=
  ∃ i, m (url.drop i) = some p ∧ ∀ j < i, m (url.drop j) = none

/-! ## Map page (`pg/map.py`): status dictionaries, filtering, centering -/

/-- `flag_to_description` from `process_property_data`;
`Series.map` leaves keys outside the dict unmapped (modelled `none`). -/
def flag_to_description : ℕ → Option String
  | 0 => some "Full"
  | 1 => some "Free rooms"
  | 2 => some "TBD"
  | _ => none

/-- `description_to_flag` from the marker loop of `pg/map.py` (Python dict
indexing raises `KeyError` outside the keys, modelled `none`). -/
def description_to_flag (s : String) : Option ℕ :=
  if s = "Full" then some 0
  else if s = "Free rooms" then some 1
  else if s = "TBD" then some 2
  else none

/-- `status_flags` from the marker loop: marker color per numeric flag. -/
def status_flags : ℕ → Option String
  | 0 => some "red"
  | 1 => some "green"
  | 2 => some "orange"
  | _ => none

/-- One processed listing row of the map page, restricted to the columns
the filtering and centering logic reads: coordinates, `price` and the
label-mapped `mid_Sep_flag`. -/
structure PropertyRow where
  title : String
  latitude : ℚ
  longitude : ℚ
  price : ℤ
  mid_Sep_flag : String
deriving DecidableEq

/-- The row filter of `pg/map.py`:
`price_mask = (price >= lo) & (price <= hi)`,
`status_mask = mid_Sep_flag.isin(status_filter)`,
`filtered_df = df_processed[price_mask & status_mask]`. -/
def filtered_df (rows : List PropertyRow) (lo hi : ℤ)
    (status_filter : List String) : List PropertyRow :=
  rows.filter fun r =>
    decide (lo ≤ r.price) && decide (r.price ≤ hi)
      && status_filter.contains r.mid_Sep_flag

def insertSorted (x : ℚ) : List ℚ → List ℚ
  | [] => [x]
  | y :: ys => if x ≤ y then x :: y :: ys else y :: insertSorted x ys

/-- Ascending sort of the column values. -/
def sortRats (l : List ℚ) : List ℚ := l.foldr insertSorted []

/-- `Series.median`: middle element of the sorted values for an odd count,
mean of the two middle elements for an even count. -/
def median (l : List ℚ) : ℚ :=
  if (sortRats l).length % 2 = 1 then (sortRats l).getD ((sortRats l).length / 2) 0
  else ((sortRats l).getD ((sortRats l).length / 2 - 1) 0
    + (sortRats l).getD ((sortRats l).length / 2) 0) / 2

/-- The single reference row of the default-location table. -/
structure LocationRow where
  latitude : ℚ
  longitude : ℚ
  title : String
deriving DecidableEq

/-- `create_base_map(df_all)`: the map is created at
`[df_all.latitude.median(), df_all.longitude.median()]`. -/
def create_base_map (df_all : List PropertyRow) : ℚ × ℚ :=
  (median (df_all.map PropertyRow.latitude),
   median (df_all.map PropertyRow.longitude))

/-- The map page loads `df_default_location` and `df_all` and then centers
the map with `create_base_map(df_all)`; the default-location dataframe is
not consulted. -/
def map_page_start_coords (_df_default_location : List LocationRow)
    (df_all : List PropertyRow) : ℚ × ℚ :=
  create_base_map df_all

/-! ## Database facade (`property_map/db.py`) -/

def DATA_TABLE : String := "properties_CM_pub"

def DEFAULT_LOCATION_TABLE : String := "default_location_CM_pub"

/-- Outcome of `Database.fetch_properties`: the returned dataframe or the
raised `ValueError`, together with the number of remote calls performed
(`client.table(table).select("*").execute()`). -/
structure FetchResult (α : Type) where
  result : Except String α
  networkCalls : ℕ

/-- `Database.fetch_properties`: the `table` selector is resolved before
anything else; `"all"` and `"default_location"` each lead to exactly one
network call on the resolved table, any other selector raises
`ValueError("Invalid table: " ++ table)` with no network access.  The
remote store is abstracted as a function `net` from table name to rows. -/
def fetch_properties {α : Type} (net : String → α) (table : String) :
    FetchResult α :=
  if table = "all" then ⟨Except.ok (net DATA_TABLE), 1⟩
  else if table = "default_location" then
    ⟨Except.ok (net DEFAULT_LOCATION_TABLE), 1⟩
  else ⟨Except.error ("Invalid table: " ++ table), 0⟩

/-! ## Insert path (`Database.insert_property`, `pg/form.py`) -/

/-- A Python `datetime.date`; the constructor enforces
`1 <= year <= 9999`, `1 <= month <= 12` and `1 <= day <= 31`. -/
structure PyDate where
  year : ℕ
  month : ℕ
  day : ℕ
deriving DecidableEq

def PyDate.valid (d : PyDate) : Prop :=
  1 ≤ d.year ∧ d.year ≤ 9999 ∧ 1 ≤ d.month ∧ d.month ≤ 12
    ∧ 1 ≤ d.day ∧ d.day ≤ 31

instance (d : PyDate) : Decidable d.valid := by
  unfold PyDate.valid
  infer_instance

/-- A JSON-serializable cell of the inserted row. -/
inductive Value where
  | s (v : String)
  | q (v : ℚ)
  | z (v : ℤ)
deriving DecidableEq

def digitChar (n : ℕ) : Char := Char.ofNat (48 + n)

/-- `strftime` zero-padded two-digit field (`%m`, `%d`). -/
def pad2 (n : ℕ) : List Char := [digitChar (n / 10 % 10), digitChar (n % 10)]

/-- `strftime` zero-padded four-digit year (`%Y` over the `date` range). -/
def pad4 (n : ℕ) : List Char :=
  [digitChar (n / 1000 % 10), digitChar (n / 100 % 10),
   digitChar (n / 10 % 10), digitChar (n % 10)]

/-- `date_added.strftime("%Y-%m-%d")`. -/
def strftimeISO (d : PyDate) : List Char :=
  pad4 d.year ++ '-' :: (pad2 d.month ++ '-' :: pad2 d.day)

def charVal (c : Char) : ℕ := c.toNat - 48

/-- Spec-side ISO-8601 calendar-date reader: exactly ten characters
`YYYY-MM-DD`, all digits apart from the two dashes. -/
def parseISODate : List Char → Option PyDate
  | [y1, y2, y3, y4, s1, m1, m2, s2, d1, d2] =>
    if s1 == '-' && s2 == '-' && y1.isDigit && y2.isDigit && y3.isDigit
        && y4.isDigit && m1.isDigit && m2.isDigit && d1.isDigit && d2.isDigit
    then some ⟨((charVal y1 * 10 + charVal y2) * 10 + charVal y3) * 10
        + charVal y4,
      charVal m1 * 10 + charVal m2, charVal d1 * 10 + charVal d2⟩
    else none
  | _ => none

/-- The draft listing collected by the form (§3 of the spec, minus the
status/derived fields, which the form never collects). -/
structure ListingDraft where
  title : String
  listing_url : String
  google_maps_url : String
  latitude : ℚ
  longitude : ℚ
  price : ℤ
  contract_length : ℤ
  has_a_desk : ℤ
  date_added : PyDate
  description : String

/-- `Database.insert_property`: the row dict passed to
`client.from_(...).insert([...])`, in source order, with the date rendered
by `strftime("%Y-%m-%d")`. -/
def insert_property (d : ListingDraft) : List (String × Value) :=
  [("title", Value.s d.title),
   ("listing_url", Value.s d.listing_url),
   ("google_maps_url", Value.s d.google_maps_url),
   ("latitude", Value.q d.latitude),
   ("longitude", Value.q d.longitude),
   ("price", Value.z d.price),
   ("contract_length", Value.z d.contract_length),
   ("has_a_desk", Value.z d.has_a_desk),
   ("date_added", Value.s (String.mk (strftimeISO d.date_added))),
   ("description", Value.s d.description)]

/-- Key lookup in the serialized row. -/
def rowLookup (row : List (String × Value)) (k : String) : Option Value :=
  (row.find? fun p => p.1 == k).map Prod.snd

/-- `desk_flag = 1 if has_a_desk == "Yes" else 0` from `pg/form.py`; the
pill widget yields `"Yes"`, `"No"` or `None`. -/
def desk_flag (has_a_desk : Option String) : ℤ :=
  if has_a_desk = some "Yes" then 1 else 0

/-- The form submission path for the desk field: the pill selection is
folded through `desk_flag` and stored in the row's `has_a_desk` cell. -/
def form_submit_has_a_desk (pills : Option String) (d : ListingDraft) :
    Option Value :=
  rowLookup (insert_property { d with has_a_desk := desk_flag pills })
    "has_a_desk"

/-! ## Shape lemmas for decimal fragments -/

lemma all_takeWhile (p : Char → Bool) (l : List Char) :
    (l.takeWhile p).all p = true := by
  induction l with
  | nil => rfl
  | cons c t ih =>
    by_cases h : p c
    · simp [List.takeWhile_cons, h, ih]
    · simp [List.takeWhile_cons, h]

lemma all_imp {p q : Char → Bool} {l : List Char}
    (hpq : ∀ c, p c = true → q c = true) (h : l.all p = true) :
    l.all q = true := by
  rw [List.all_eq_true] at h ⊢
  exact fun c hc => hpq c (h c hc)

lemma not_mem_of_all {p : Char → Bool} {l : List Char} {a : Char}
    (h : l.all p = true) (ha : p a = false) : a ∉ l := by
  intro hmem
  have := List.all_eq_true.mp h a hmem
  simp [this] at ha

lemma any_of_all_nonempty {p : Char → Bool} {l : List Char}
    (h : l.all p = true) (hne : l ≠ []) : l.any p = true := by
  rcases l with _ | ⟨c, t⟩
  · exact absurd rfl hne
  · rw [List.all_cons, Bool.and_eq_true] at h
    rw [List.any_cons, h.1, Bool.true_or]

lemma decimalBody_imp_digitDotBody {s : List Char}
    (h : decimalBody s = true) : digitDotBody s = true := by
  unfold decimalBody at h
  rw [Bool.and_eq_true, Bool.and_eq_true] at h
  obtain ⟨⟨hall, hcnt⟩, hany⟩ := h
  have hcnt' : s.count '.' ≤ 1 := by simpa using hcnt
  have hsplit : s = s.takeWhile Char.isDigit ++ s.dropWhile Char.isDigit :=
    (List.takeWhile_append_dropWhile ..).symm
  unfold digitDotBody
  rcases hrest : s.dropWhile Char.isDigit with _ | ⟨r, rs⟩
  · show (!s.isEmpty) = true
    rcases s with _ | ⟨c, t⟩
    · simp at hany
    · rfl
  · show (r == '.' && rs.all Char.isDigit && s.any Char.isDigit) = true
    rw [hrest] at hsplit
    have hrmem : r ∈ s := by
      rw [hsplit]
      exact List.mem_append_right _ (List.mem_cons_self r rs)
    have hrdot : r = '.' := by
      have hr : r.isDigit = false := by
        have hh := List.head?_dropWhile_not Char.isDigit s
        rw [hrest] at hh
        simpa using hh
      have := List.all_eq_true.mp hall r hrmem
      simpa [hr] using this
    subst hrdot
    have htw0 : (s.takeWhile Char.isDigit).count '.' = 0 :=
      List.count_eq_zero.mpr (not_mem_of_all (all_takeWhile _ s) (by decide))
    have hceq : s.count '.'
        = (s.takeWhile Char.isDigit).count '.' + (rs.count '.' + 1) := by
      conv_lhs => rw [hsplit]
      simp [List.count_append, List.count_cons]
    have hrs0 : rs.count '.' = 0 := by omega
    have hrsall : rs.all Char.isDigit = true := by
      rw [List.all_eq_true]
      intro c hc
      have hcs : c ∈ s := by
        rw [hsplit]
        exact List.mem_append_right _ (List.mem_cons_of_mem _ hc)
      have hdd := List.all_eq_true.mp hall c hcs
      have hne : c ≠ '.' := fun he => List.count_eq_zero.mp hrs0 (he ▸ hc)
      simpa [hne] using hdd
    simp [hrsall, hany]

lemma digitDotBody_imp_decimalBody {s : List Char}
    (h : digitDotBody s = true) : decimalBody s = true := by
  have hsplit : s = s.takeWhile Char.isDigit ++ s.dropWhile Char.isDigit :=
    (List.takeWhile_append_dropWhile ..).symm
  have htwall : (s.takeWhile Char.isDigit).all Char.isDigit = true :=
    all_takeWhile _ s
  have htw0 : (s.takeWhile Char.isDigit).count '.' = 0 :=
    List.count_eq_zero.mpr (not_mem_of_all htwall (by decide))
  unfold digitDotBody at h
  unfold decimalBody
  rw [Bool.and_eq_true, Bool.and_eq_true]
  rcases hrest : s.dropWhile Char.isDigit with _ | ⟨r, rs⟩
  · rw [hrest] at h
    replace h : (!s.isEmpty) = true := h
    rw [hrest, List.append_nil] at hsplit
    have hall : s.all Char.isDigit = true := by
      rw [hsplit]; exact htwall
    have hne : s ≠ [] := by
      intro he
      rw [he] at h
      simp at h
    refine ⟨⟨all_imp (fun c hp => by simp [hp]) hall, ?_⟩,
      any_of_all_nonempty hall hne⟩
    have hdot : ('.' : Char) ∉ s := not_mem_of_all hall (by decide)
    simp [List.count_eq_zero.mpr hdot]
  · rw [hrest] at h
    replace h : (r == '.' && rs.all Char.isDigit && s.any Char.isDigit)
        = true := h
    rw [hrest] at hsplit
    rw [Bool.and_eq_true, Bool.and_eq_true] at h
    obtain ⟨⟨hrdot, hrsall⟩, hany⟩ := h
    have hrdot' : r = '.' := by simpa using hrdot
    subst hrdot'
    refine ⟨⟨?_, ?_⟩, hany⟩
    · rw [hsplit, List.all_append]
      rw [Bool.and_eq_true]
      refine ⟨all_imp (fun c hp => by simp [hp]) htwall, ?_⟩
      rw [List.all_cons, Bool.and_eq_true]
      exact ⟨by decide, all_imp (fun c hp => by simp [hp]) hrsall⟩
    · have hrs0 : rs.count '.' = 0 :=
        List.count_eq_zero.mpr (not_mem_of_all hrsall (by decide))
      have hc1 : s.count '.' = 1 := by
        conv_lhs => rw [hsplit]
        simp [List.count_append, List.count_cons, htw0, hrs0]
      simp [hc1]

/-- The spec's decimal grammar coincides with the acceptance condition of
Python `float` on fragments over the characters `[0-9.]`. -/
lemma decimalBody_eq_digitDotBody (s : List Char) :
    decimalBody s = digitDotBody s := by
  cases hd : decimalBody s <;> cases hg : digitDotBody s <;> try rfl
  · exact absurd (digitDotBody_imp_decimalBody hg) (by simp [hd])
  · exact absurd (decimalBody_imp_digitDotBody hd) (by simp [hg])

lemma digitDotBody_facts {d : List Char} (h : digitDotBody d = true) :
    d ≠ [] ∧ d.all (fun c => c.isDigit || c == '.') = true
      ∧ ∃ c ∈ d, c.isDigit = true := by
  have hd := digitDotBody_imp_decimalBody h
  unfold decimalBody at hd
  rw [Bool.and_eq_true, Bool.and_eq_true] at hd
  obtain ⟨⟨hall, -⟩, hany⟩ := hd
  refine ⟨?_, hall, ?_⟩
  · intro he
    rw [he] at hany
    simp at hany
  · simpa using hany

lemma isSignedDecimal_cons_neg (t : List Char) :
    isSignedDecimal ('-' :: t) = digitDotBody t := rfl

lemma isSignedDecimal_eq_digitDotBody {s : List Char}
    (h : s.head? ≠ some '-') : isSignedDecimal s = digitDotBody s := by
  rcases s with _ | ⟨c, t⟩
  · rfl
  · unfold isSignedDecimal
    split
    · rename_i heq
      injection heq with h1 h2
      exact absurd (by simp [h1]) h
    · rfl

lemma digitDot_class {c : Char} (h : (c.isDigit || c == '.') = true) :
    charClass c = true := by
  cases hd : c.isDigit
  · rw [hd] at h
    have h' : c = '.' := by simpa using h
    subst h'
    decide
  · unfold charClass
    simp [hd]

lemma isSignedDecimal_facts {d : List Char} (h : isSignedDecimal d = true) :
    d ≠ [] ∧ d.all charClass = true ∧ ∃ c ∈ d, c.isDigit = true := by
  rcases d with _ | ⟨c, t⟩
  · exact absurd h (by decide)
  · by_cases hc : c = '-'
    · subst hc
      rw [isSignedDecimal_cons_neg] at h
      obtain ⟨-, hall, hdig⟩ := digitDotBody_facts h
      refine ⟨by simp, ?_, ?_⟩
      · rw [List.all_cons, Bool.and_eq_true]
        exact ⟨by decide, all_imp (fun c hp => digitDot_class hp) hall⟩
      · obtain ⟨x, hx, hxd⟩ := hdig
        exact ⟨x, List.mem_cons_of_mem _ hx, hxd⟩
    · rw [isSignedDecimal_eq_digitDotBody (by simp [hc])] at h
      obtain ⟨hne, hall, hdig⟩ := digitDotBody_facts h
      exact ⟨hne, all_imp (fun c hp => digitDot_class hp) hall, hdig⟩

lemma ne_nil_of_isEmpty_false {l : List Char} (h : l.isEmpty = false) :
    l ≠ [] := by
  intro he
  rw [he] at h
  simp at h

/-- A successful `!3d!4d` match attempt captures the two maximal class runs
after the literals. -/
lemma match3d4dAt_groups {s g1 g2 : List Char}
    (h : match3d4dAt s = some (g1, g2)) :
    g1 ≠ [] ∧ g1.all charClass = true ∧ g2 ≠ [] ∧ g2.all charClass = true := by
  unfold match3d4dAt at h
  by_cases h3 : s.take 3 = ['!', '3', 'd']
  · rw [if_pos h3] at h
    cases hg1 : ((s.drop 3).takeWhile charClass).isEmpty
    · rw [hg1] at h
      by_cases h4 : ((s.drop 3).dropWhile charClass).take 3 = ['!', '4', 'd']
      · rw [if_neg (by simp), if_pos h4] at h
        cases hg2 : ((((s.drop 3).dropWhile charClass).drop 3).takeWhile
            charClass).isEmpty
        · rw [hg2, if_neg (by simp)] at h
          injection h with h
          injection h with ha hb
          subst ha; subst hb
          exact ⟨ne_nil_of_isEmpty_false hg1, all_takeWhile ..,
            ne_nil_of_isEmpty_false hg2, all_takeWhile ..⟩
        · rw [hg2] at h
          exact absurd h (by simp)
      · rw [if_neg (by simp), if_neg h4] at h
        exact absurd h (by simp)
    · rw [hg1] at h
      exact absurd h (by simp)
  · rw [if_neg h3] at h
    exact absurd h (by simp)

/-- A successful `@lat,lon` match attempt captures the two maximal class
runs around the comma. -/
lemma matchAtSignAt_groups {s g1 g2 : List Char}
    (h : matchAtSignAt s = some (g1, g2)) :
    g1 ≠ [] ∧ g1.all charClass = true ∧ g2 ≠ [] ∧ g2.all charClass = true := by
  unfold matchAtSignAt at h
  by_cases h3 : s.take 1 = ['@']
  · rw [if_pos h3] at h
    cases hg1 : ((s.drop 1).takeWhile charClass).isEmpty
    · rw [hg1] at h
      by_cases h4 : ((s.drop 1).dropWhile charClass).take 1 = [',']
      · rw [if_neg (by simp), if_pos h4] at h
        cases hg2 : ((((s.drop 1).dropWhile charClass).drop 1).takeWhile
            charClass).isEmpty
        · rw [hg2, if_neg (by simp)] at h
          injection h with h
          injection h with ha hb
          subst ha; subst hb
          exact ⟨ne_nil_of_isEmpty_false hg1, all_takeWhile ..,
            ne_nil_of_isEmpty_false hg2, all_takeWhile ..⟩
        · rw [hg2] at h
          exact absurd h (by simp)
      · rw [if_neg (by simp), if_neg h4] at h
        exact absurd h (by simp)
    · rw [hg1] at h
      exact absurd h (by simp)
  · rw [if_neg h3] at h
    exact absurd h (by simp)

/-- A strict `!3d<decimal>!4d<decimal>` fragment at the head of the string
makes the match attempt succeed, capturing `d1` exactly and `d2` possibly
extended by further class characters of `post`. -/
lemma match3d4dAt_strict {d1 d2 post : List Char}
    (h1 : isSignedDecimal d1 = true) (h2 : isSignedDecimal d2 = true) :
    match3d4dAt ('!' :: '3' :: 'd' :: (d1 ++ '!' :: '4' :: 'd' :: (d2 ++ post)))
      = some (d1, (d2 ++ post).takeWhile charClass) := by
  obtain ⟨hne1, hcl1, -⟩ := isSignedDecimal_facts h1
  obtain ⟨hne2, hcl2, -⟩ := isSignedDecimal_facts h2
  have hmem1 : ∀ a ∈ d1, charClass a = true := List.all_eq_true.mp hcl1
  have hmem2 : ∀ a ∈ d2, charClass a = true := List.all_eq_true.mp hcl2
  have hbang : charClass '!' = false := by decide
  have htk : (d1 ++ '!' :: '4' :: 'd' :: (d2 ++ post)).takeWhile charClass
      = d1 := by
    rw [List.takeWhile_append_of_pos hmem1, List.takeWhile_cons, hbang]
    simp
  have hdr : (d1 ++ '!' :: '4' :: 'd' :: (d2 ++ post)).dropWhile charClass
      = '!' :: '4' :: 'd' :: (d2 ++ post) := by
    rw [List.dropWhile_append_of_pos hmem1, List.dropWhile_cons, hbang]
    simp
  have e1 : ('!' :: '3' :: 'd' :: (d1 ++ '!' :: '4' :: 'd' :: (d2 ++ post))).take 3
      = ['!', '3', 'd'] := rfl
  have e2 : ('!' :: '3' :: 'd' :: (d1 ++ '!' :: '4' :: 'd' :: (d2 ++ post))).drop 3
      = d1 ++ '!' :: '4' :: 'd' :: (d2 ++ post) := rfl
  have e3 : ('!' :: '4' :: 'd' :: (d2 ++ post)).take 3 = ['!', '4', 'd'] := rfl
  have e4 : ('!' :: '4' :: 'd' :: (d2 ++ post)).drop 3 = d2 ++ post := rfl
  have hne1' : d1.isEmpty = false := by
    rcases d1 with _ | ⟨b, u⟩
    · exact absurd rfl hne1
    · rfl
  have hg2 : (d2 ++ post).takeWhile charClass
      = d2 ++ post.takeWhile charClass := List.takeWhile_append_of_pos hmem2
  have hne2' : ((d2 ++ post).takeWhile charClass).isEmpty = false := by
    rw [hg2]
    rcases d2 with _ | ⟨a, t⟩
    · exact absurd rfl hne2
    · rfl
  unfold match3d4dAt
  rw [e1, e2, htk, hdr, e3, e4, hne1', hne2']
  simp

/-- `re.search` only reports successful match attempts at some position. -/
lemma reSearch_leftmost {m : List Char → Option (List Char × List Char)}
    {url : List Char} {p : List Char × List Char}
    (h : reSearch m url = some p) : LeftmostMatch m url p := by
  induction url with
  | nil => exact absurd h (by simp [reSearch])
  | cons c rest ih =>
    unfold reSearch at h
    rcases hm : m (c :: rest) with _ | q
    · rw [hm] at h
      replace h : reSearch m rest = some p := h
      obtain ⟨i, hi, hj⟩ := ih h
      refine ⟨i + 1, by simpa using hi, ?_⟩
      intro j hj'
      rcases j with _ | k
      · simpa using hm
      · have hk : k < i := by omega
        simpa using hj k hk
    · rw [hm] at h
      replace h : some q = some p := h
      injection h with h
      subst h
      exact ⟨0, by simpa using hm, fun j hj => absurd hj (Nat.not_lt_zero j)⟩

/-- A successful match attempt anywhere in the string makes `re.search`
succeed. -/
lemma reSearch_isSome_append (m : List Char → Option (List Char × List Char))
    (pre tail : List Char) (hne : tail ≠ [])
    (h : (m tail).isSome = true) : (reSearch m (pre ++ tail)).isSome = true := by
  induction pre with
  | nil =>
    rw [List.nil_append]
    rcases tail with _ | ⟨c, r⟩
    · exact absurd rfl hne
    · unfold reSearch
      rcases hm : m (c :: r) with _ | p
      · rw [hm] at h
        simp at h
      · simp [hm]
  | cons c pre ih =>
    rw [List.cons_append]
    unfold reSearch
    rcases hm : m (c :: (pre ++ tail)) with _ | p
    · simpa [hm] using ih
    · simp [hm]

lemma pyFloat_cons_neg (t : List Char) :
    pyFloat ('-' :: t) = (parseUnsigned t).map Neg.neg := rfl

lemma pyFloat_eq_parseUnsigned {s : List Char} (h : s.head? ≠ some '-') :
    pyFloat s = parseUnsigned s := by
  rcases s with _ | ⟨c, t⟩
  · rfl
  · unfold pyFloat
    split
    · rename_i heq
      injection heq with h1 h2
      exact absurd (by simp [h1]) h
    · rfl

lemma parseUnsigned_isSome (s : List Char) :
    (parseUnsigned s).isSome = decimalBody s := by
  unfold parseUnsigned
  by_cases h : decimalBody s <;> simp [h]

lemma contains3d4d_mem_bang {url : List Char} (h : contains3d4d url) :
    '!' ∈ url := by
  obtain ⟨pre, d1, d2, post, hurl, -, -⟩ := h
  subst hurl
  exact List.mem_append_right _ (List.mem_cons_self ..)

lemma containsAtPair_digit {url : List Char} (h : containsAtPair url) :
    ∃ c ∈ url, c.isDigit = true := by
  obtain ⟨pre, d1, d2, post, hurl, hd1, -⟩ := h
  obtain ⟨-, -, x, hx, hxd⟩ := isSignedDecimal_facts hd1
  subst hurl
  exact ⟨x, List.mem_append_right _
    (List.mem_cons_of_mem _ (List.mem_append_left _ hx)), hxd⟩

/-! ## Claim theorems: the coordinate extractor -/

/-- C1 (amended): any URL containing a strict
`!3d<signed-decimal>!4d<signed-decimal>` substring makes the `!3d!4d`
search succeed; whenever the `!3d!4d` search succeeds and Python `float`
accepts both captured groups, `extract_coordinates` returns exactly the
pair parsed from those 3d/4d groups — regardless of any `@lat,lon`
fragment also present; and only when the `!3d!4d` search fails does the
function return the pair parsed from the groups of the `@lat,lon` search. -/
theorem extract_coordinates_priority (url : List Char) :
    (contains3d4d url → (search3d4d url).isSome = true)
  ∧ (∀ g1 g2 lat lon, search3d4d url = some (g1, g2) →
      pyFloat g1 = some lat → pyFloat g2 = some lon →
      extract_coordinates url = Except.ok (some (lat, lon)))
  ∧ (search3d4d url = none → ∀ g1 g2 lat lon,
      searchAtSign url = some (g1, g2) →
      pyFloat g1 = some lat → pyFloat g2 = some lon →
      extract_coordinates url = Except.ok (some (lat, lon))) := by
  refine ⟨?_, ?_, ?_⟩
  · rintro ⟨pre, d1, d2, post, hurl, hd1, hd2⟩
    subst hurl
    exact reSearch_isSome_append match3d4dAt pre _ (by simp)
      (by rw [match3d4dAt_strict hd1 hd2]; rfl)
  · intro g1 g2 lat lon hs hp1 hp2
    unfold extract_coordinates
    simp only [hs, hp1, hp2]
  · intro hn g1 g2 lat lon hs hp1 hp2
    unfold extract_coordinates
    simp only [hn, hs, hp1, hp2]

/-- Witness for C1: the spec's own worked example, a URL carrying both a
`!3d!4d` fragment and a trailing `@lat,lon` fragment. -/
theorem extract_coordinates_priority_witness :
    extract_coordinates "!3d18.7883!4d98.9853/@18.0,99.0".toList
      = Except.ok (some (mkRat 187883 10000, mkRat 989853 10000)) :=
  (extract_coordinates_priority _).2.1 "18.7883".toList "98.9853".toList _ _
    (by decide) (by decide) (by decide)

/-- Counterexample to C1 as stated: this URL contains the strict substring
`!3d1.5!4d2.5` matching `!3d<signed-decimal>!4d<signed-decimal>`, yet the
greedy capture grabs `2.5.6`, Python `float` raises `ValueError`, and no
pair is returned. -/
theorem extract_coordinates_crash_despite_pattern :
    contains3d4d "!3d1.5!4d2.5.6".toList
  ∧ extract_coordinates "!3d1.5!4d2.5.6".toList = Except.error () := by
  constructor
  · exact ⟨[], "1.5".toList, "2.5".toList, ".6".toList,
      by decide, by decide, by decide⟩
  · decide

/-- C3 (amended): when neither regex search finds a match the function
returns `None` and raises nothing. -/
theorem extract_coordinates_none_of_no_match (url : List Char)
    (h1 : search3d4d url = none) (h2 : searchAtSign url = none) :
    extract_coordinates url = Except.ok none := by
  unfold extract_coordinates
  simp only [h1, h2]

/-- Witness for C3: the empty string and the spec's no-coordinate example
both yield the NotFound signal. -/
theorem extract_coordinates_none_of_no_match_witness :
    extract_coordinates "".toList = Except.ok none
  ∧ extract_coordinates "https://example.com/no-coords".toList
      = Except.ok none :=
  ⟨extract_coordinates_none_of_no_match _ (by decide) (by decide),
   extract_coordinates_none_of_no_match _ (by decide) (by decide)⟩

/-- Counterexample to C3 as stated: `"@-,-"` contains neither a
`!3d<signed-decimal>!4d<signed-decimal>` nor a
`@<signed-decimal>,<signed-decimal>` substring, yet `extract_coordinates`
raises `ValueError` (from `float("-")`) instead of returning `None`. -/
theorem extract_coordinates_crash_without_pattern :
    ¬ contains3d4d "@-,-".toList ∧ ¬ containsAtPair "@-,-".toList
  ∧ extract_coordinates "@-,-".toList = Except.error () := by
  refine ⟨fun h => ?_, fun h => ?_, by decide⟩
  · exact absurd (contains3d4d_mem_bang h) (by decide)
  · obtain ⟨c, hc, hcd⟩ := containsAtPair_digit h
    have hnd : ∀ c ∈ "@-,-".toList, c.isDigit = false := by decide
    rw [hnd c hc] at hcd
    exact Bool.false_ne_true hcd

/-- C7: the numeric fragments `extract_coordinates` can feed to `float`
are always nonempty runs over the class `[-0-9.]` (so exponential notation
and thousands separators can never even be captured), and among such
fragments `float` accepts exactly the signed-decimal shapes: an optional
leading minus sign, digits and at most one decimal point — interior or
repeated minus signs, repeated dots and digitless fragments are rejected. -/
theorem extract_coordinates_number_shapes (url g1 g2 : List Char)
    (h : search3d4d url = some (g1, g2) ∨ searchAtSign url = some (g1, g2)) :
    (g1 ≠ [] ∧ g1.all charClass = true ∧ g2 ≠ [] ∧ g2.all charClass = true)
  ∧ ∀ g : List Char, (pyFloat g).isSome = isSignedDecimal g := by
  constructor
  · rcases h with h | h
    · obtain ⟨i, hi, -⟩ := reSearch_leftmost h
      exact match3d4dAt_groups hi
    · obtain ⟨i, hi, -⟩ := reSearch_leftmost h
      exact matchAtSignAt_groups hi
  · intro g
    rcases g with _ | ⟨c, t⟩
    · rfl
    · by_cases hc : c = '-'
      · subst hc
        rw [pyFloat_cons_neg, isSignedDecimal_cons_neg]
        have hm : ((parseUnsigned t).map Neg.neg).isSome
            = (parseUnsigned t).isSome := by
          rcases parseUnsigned t with _ | v <;> rfl
        rw [hm, parseUnsigned_isSome, decimalBody_eq_digitDotBody]
      · have hh : (c :: t).head? ≠ some '-' := by simp [hc]
        rw [pyFloat_eq_parseUnsigned hh, isSignedDecimal_eq_digitDotBody hh,
          parseUnsigned_isSome, decimalBody_eq_digitDotBody]

/-- Witness for C7, at the URL `"@1,2"` whose `@lat,lon` search captures
the groups `1` and `2`. -/
theorem extract_coordinates_number_shapes_witness :
    ("1".toList ≠ [] ∧ "1".toList.all charClass = true
      ∧ "2".toList ≠ [] ∧ "2".toList.all charClass = true)
  ∧ ∀ g : List Char, (pyFloat g).isSome = isSignedDecimal g :=
  extract_coordinates_number_shapes "@1,2".toList "1".toList "2".toList
    (Or.inr (by decide))

/-- C8: whenever `extract_coordinates` returns a pair, that pair is parsed
from the groups of a match attempt at some position at which no earlier
position matches — the leftmost occurrence of the winning pattern — and the
`@lat,lon` pattern is only consulted when the `!3d!4d` search found no
match at all. -/
theorem extract_coordinates_first_match_wins (url : List Char) (lat lon : ℚ)
    (h : extract_coordinates url = Except.ok (some (lat, lon))) :
    (∃ g1 g2, search3d4d url = some (g1, g2)
      ∧ pyFloat g1 = some lat ∧ pyFloat g2 = some lon
      ∧ LeftmostMatch match3d4dAt url (g1, g2))
  ∨ (search3d4d url = none ∧ ∃ g1 g2, searchAtSign url = some (g1, g2)
      ∧ pyFloat g1 = some lat ∧ pyFloat g2 = some lon
      ∧ LeftmostMatch matchAtSignAt url (g1, g2)) := by
  rcases hs : search3d4d url with _ | ⟨g1, g2⟩
  · rcases ha : searchAtSign url with _ | ⟨g1, g2⟩
    · have he : extract_coordinates url = Except.ok none := by
        unfold extract_coordinates
        simp only [hs, ha]
      rw [he] at h
      exact absurd h (by simp)
    · rcases hp1 : pyFloat g1 with _ | a
      · have he : extract_coordinates url = Except.error () := by
          unfold extract_coordinates
          rcases hq : pyFloat g2 with _ | b <;> simp only [hs, ha, hp1, hq]
        rw [he] at h
        exact absurd h (by simp)
      · rcases hp2 : pyFloat g2 with _ | b
        · have he : extract_coordinates url = Except.error () := by
            unfold extract_coordinates
            simp only [hs, ha, hp1, hp2]
          rw [he] at h
          exact absurd h (by simp)
        · have he : extract_coordinates url = Except.ok (some (a, b)) := by
            unfold extract_coordinates
            simp only [hs, ha, hp1, hp2]
          rw [he] at h
          rw [Except.ok.injEq, Option.some.injEq, Prod.mk.injEq] at h
          obtain ⟨h1, h2⟩ := h
          subst h1; subst h2
          exact Or.inr ⟨rfl, g1, g2, rfl, hp1, hp2, reSearch_leftmost ha⟩
  · rcases hp1 : pyFloat g1 with _ | a
    · have he : extract_coordinates url = Except.error () := by
        unfold extract_coordinates
        rcases hq : pyFloat g2 with _ | b <;> simp only [hs, hp1, hq]
      rw [he] at h
      exact absurd h (by simp)
    · rcases hp2 : pyFloat g2 with _ | b
      · have he : extract_coordinates url = Except.error () := by
          unfold extract_coordinates
          simp only [hs, hp1, hp2]
        rw [he] at h
        exact absurd h (by simp)
      · have he : extract_coordinates url = Except.ok (some (a, b)) := by
          unfold extract_coordinates
          simp only [hs, hp1, hp2]
        rw [he] at h
        rw [Except.ok.injEq, Option.some.injEq, Prod.mk.injEq] at h
        obtain ⟨h1, h2⟩ := h
        subst h1; subst h2
        exact Or.inl ⟨g1, g2, rfl, hp1, hp2, reSearch_leftmost hs⟩

/-- Witness for C8: a URL with two `!3d!4d` occurrences; the returned pair
comes from the leftmost one. -/
theorem extract_coordinates_first_match_wins_witness :
    (∃ g1 g2, search3d4d "!3d1!4d2x!3d3!4d4".toList = some (g1, g2)
      ∧ pyFloat g1 = some (mkRat 1 1) ∧ pyFloat g2 = some (mkRat 2 1)
      ∧ LeftmostMatch match3d4dAt "!3d1!4d2x!3d3!4d4".toList (g1, g2))
  ∨ (search3d4d "!3d1!4d2x!3d3!4d4".toList = none
      ∧ ∃ g1 g2, searchAtSign "!3d1!4d2x!3d3!4d4".toList = some (g1, g2)
      ∧ pyFloat g1 = some (mkRat 1 1) ∧ pyFloat g2 = some (mkRat 2 1)
      ∧ LeftmostMatch matchAtSignAt "!3d1!4d2x!3d3!4d4".toList (g1, g2)) :=
  extract_coordinates_first_match_wins _ (mkRat 1 1) (mkRat 2 1) (by decide)

/-! ## Claim theorems: map page, database facade, form -/

/-- C2: a listing row survives the price/status filter exactly when its
price lies in the selected closed interval and its status label is among
the selected statuses; with no status selected the filtered result is
empty whatever the price range. -/
theorem filtered_df_membership (rows : List PropertyRow) (lo hi : ℤ)
    (statuses : List String) (r : PropertyRow) :
    (r ∈ filtered_df rows lo hi statuses
      ↔ r ∈ rows ∧ lo ≤ r.price ∧ r.price ≤ hi ∧ r.mid_Sep_flag ∈ statuses)
  ∧ filtered_df rows lo hi [] = [] := by
  constructor
  · unfold filtered_df
    rw [List.mem_filter]
    constructor
    · rintro ⟨hm, hb⟩
      rw [Bool.and_eq_true, Bool.and_eq_true] at hb
      obtain ⟨⟨h1, h2⟩, h3⟩ := hb
      exact ⟨hm, by simpa using h1, by simpa using h2, by simpa using h3⟩
    · rintro ⟨hm, h1, h2, h3⟩
      refine ⟨hm, ?_⟩
      rw [Bool.and_eq_true, Bool.and_eq_true]
      exact ⟨⟨by simpa using h1, by simpa using h2⟩, by simpa using h3⟩
  · unfold filtered_df
    induction rows with
    | nil => rfl
    | cons x t ih => simp [List.filter_cons, ih]

/-- C4: mapping each of the three status codes to its display label and
back is the identity (0 to Full, 1 to Free rooms, 2 to TBD), and the three
codes carry pairwise distinct marker colors. -/
theorem status_mapping_bijective :
    ((flag_to_description 0).bind description_to_flag = some 0
      ∧ (flag_to_description 1).bind description_to_flag = some 1
      ∧ (flag_to_description 2).bind description_to_flag = some 2)
  ∧ (flag_to_description 0 = some "Full"
      ∧ flag_to_description 1 = some "Free rooms"
      ∧ flag_to_description 2 = some "TBD")
  ∧ (status_flags 0 ≠ status_flags 1 ∧ status_flags 0 ≠ status_flags 2
      ∧ status_flags 1 ≠ status_flags 2)
  ∧ (status_flags 0).isSome = true ∧ (status_flags 1).isSome = true
  ∧ (status_flags 2).isSome = true := by
  decide

/-- C5: a table selector outside the enumeration makes `fetch_properties`
fail with the `ValueError` message before any network call (zero network
calls), while the two recognized selectors succeed with exactly one
network call on the resolved table and raise nothing. -/
theorem fetch_properties_invalid_table {α : Type} (net : String → α)
    (table : String) (h1 : table ≠ "all") (h2 : table ≠ "default_location") :
    fetch_properties net table
      = ⟨Except.error ("Invalid table: " ++ table), 0⟩
  ∧ fetch_properties net "all" = ⟨Except.ok (net DATA_TABLE), 1⟩
  ∧ fetch_properties net "default_location"
      = ⟨Except.ok (net DEFAULT_LOCATION_TABLE), 1⟩ := by
  refine ⟨?_, rfl, rfl⟩
  unfold fetch_properties
  rw [if_neg h1, if_neg h2]

/-- Witness for C5, with a misspelled selector against a trivial store. -/
theorem fetch_properties_invalid_table_witness :
    fetch_properties (fun _ => ([] : List String)) "default"
      = ⟨Except.error ("Invalid table: " ++ "default"), 0⟩
  ∧ fetch_properties (fun _ => ([] : List String)) "all"
      = ⟨Except.ok [], 1⟩
  ∧ fetch_properties (fun _ => ([] : List String)) "default_location"
      = ⟨Except.ok [], 1⟩ :=
  fetch_properties_invalid_table _ "default" (by decide) (by decide)

/-- C6 (amended): the map's start coordinates are the medians of the
listing latitudes and longitudes; the fetched default-location rows do not
influence them. -/
theorem map_start_coords_median (dl dl' : List LocationRow)
    (df_all : List PropertyRow) :
    map_page_start_coords dl df_all
      = (median (df_all.map PropertyRow.latitude),
         median (df_all.map PropertyRow.longitude))
  ∧ map_page_start_coords dl df_all = map_page_start_coords dl' df_all :=
  ⟨rfl, rfl⟩

/-- Counterexample to C6 as stated: with a default location at `(10, 20)`
and a single property at `(0, 0)`, the map starts at `(0, 0)` — the median
of the properties — not at the fetched default-location pair. -/
theorem map_start_coords_ignores_default_location :
    map_page_start_coords [LocationRow.mk 10 20 "default"]
        [PropertyRow.mk "prop" 0 0 5000 "TBD"]
      ≠ ((LocationRow.mk 10 20 "default").latitude,
         (LocationRow.mk 10 20 "default").longitude) := by
  decide

lemma digitChar_isDigit {k : ℕ} (h : k < 10) : (digitChar k).isDigit = true := by
  interval_cases k <;> decide

lemma charVal_digitChar {k : ℕ} (h : k < 10) : charVal (digitChar k) = k := by
  interval_cases k <;> decide

/-- `strftime("%Y-%m-%d")` output parses back to the original valid date. -/
lemma parseISODate_strftimeISO {d : PyDate} (h : d.valid) :
    parseISODate (strftimeISO d) = some d := by
  obtain ⟨hy1, hy2, hm1, hm2, hd1, hd2⟩ := h
  rcases d with ⟨y, m, dd⟩
  have hdig : ∀ n : ℕ, (digitChar (n % 10)).isDigit = true :=
    fun n => digitChar_isDigit (Nat.mod_lt _ (by norm_num))
  have hval : ∀ n : ℕ, charVal (digitChar (n % 10)) = n % 10 :=
    fun n => charVal_digitChar (Nat.mod_lt _ (by norm_num))
  show parseISODate
      [digitChar (y / 1000 % 10), digitChar (y / 100 % 10),
       digitChar (y / 10 % 10), digitChar (y % 10), '-',
       digitChar (m / 10 % 10), digitChar (m % 10), '-',
       digitChar (dd / 10 % 10), digitChar (dd % 10)] = some ⟨y, m, dd⟩
  simp only [parseISODate]
  rw [if_pos (by simp [hdig])]
  simp only [hval, Option.some.injEq, PyDate.mk.injEq]
  simp only [PyDate.year, PyDate.month, PyDate.day] at hy1 hy2 hm1 hm2 hd1 hd2
  refine ⟨?_, ?_, ?_⟩ <;> omega

/-- C9: `insert_property` serializes every draft field into the stored row
under its own column key — exactly the ten fields of §3, with no
status/derived column — and renders the date as an ISO-8601 `YYYY-MM-DD`
string that parses back to the submitted date. -/
theorem insert_property_serialization (d : ListingDraft)
    (h : d.date_added.valid) :
    rowLookup (insert_property d) "title" = some (Value.s d.title)
  ∧ rowLookup (insert_property d) "listing_url"
      = some (Value.s d.listing_url)
  ∧ rowLookup (insert_property d) "google_maps_url"
      = some (Value.s d.google_maps_url)
  ∧ rowLookup (insert_property d) "latitude" = some (Value.q d.latitude)
  ∧ rowLookup (insert_property d) "longitude" = some (Value.q d.longitude)
  ∧ rowLookup (insert_property d) "price" = some (Value.z d.price)
  ∧ rowLookup (insert_property d) "contract_length"
      = some (Value.z d.contract_length)
  ∧ rowLookup (insert_property d) "has_a_desk"
      = some (Value.z d.has_a_desk)
  ∧ rowLookup (insert_property d) "date_added"
      = some (Value.s (String.mk (strftimeISO d.date_added)))
  ∧ rowLookup (insert_property d) "description"
      = some (Value.s d.description)
  ∧ parseISODate (strftimeISO d.date_added) = some d.date_added
  ∧ (insert_property d).map Prod.fst
      = ["title", "listing_url", "google_maps_url", "latitude", "longitude",
         "price", "contract_length", "has_a_desk", "date_added",
         "description"] :=
  ⟨rfl, rfl, rfl, rfl, rfl, rfl, rfl, rfl, rfl, rfl,
    parseISODate_strftimeISO h, rfl⟩

/-- Witness for C9: a concrete draft dated 2025-09-15. -/
theorem insert_property_serialization_witness :
    parseISODate (strftimeISO ⟨2025, 9, 15⟩) = some ⟨2025, 9, 15⟩
  ∧ rowLookup (insert_property ⟨"Cozy room", "listing", "gmaps",
      mkRat 187883 10000, mkRat 989853 10000, 9000, 6, 1, ⟨2025, 9, 15⟩,
      "near old town"⟩) "date_added" = some (Value.s "2025-09-15") := by
  have h := insert_property_serialization ⟨"Cozy room", "listing", "gmaps",
    mkRat 187883 10000, mkRat 989853 10000, 9000, 6, 1, ⟨2025, 9, 15⟩,
    "near old town"⟩ (by decide)
  refine ⟨h.2.2.2.2.2.2.2.2.2.2.1, ?_⟩
  rw [h.2.2.2.2.2.2.2.2.1]
  rfl

/-- C10: the desk value a form submission stores is `desk_flag`, which is
`1` exactly when the pill selection is `Yes` and `0` in every other case —
including an unselected pill (`None`) — so no third value can reach the
stored row from this interface. -/
theorem desk_flag_binary (pills : Option String) (d : ListingDraft) :
    form_submit_has_a_desk pills d = some (Value.z (desk_flag pills))
  ∧ (desk_flag pills = 1 ↔ pills = some "Yes")
  ∧ (desk_flag pills = 0 ∨ desk_flag pills = 1)
  ∧ desk_flag none = 0 ∧ desk_flag (some "No") = 0 := by
  refine ⟨rfl, ?_, ?_, rfl, rfl⟩
  · unfold desk_flag
    by_cases h : pills = some "Yes" <;> simp [h]
  · unfold desk_flag
    by_cases h : pills = some "Yes" <;> simp [h]

end PropertyMap
